import Mathlib

/-!
Verification of the file-retrieval engine in `src/request/request.go` of
Cultured-Downloader-CLI: the single-request dispatcher `CallRequest`, the
single-resource downloader `DownloadURL`, and the parallel coordinator
`DownloadURLsParallel`.

The embedding is shallow: the filesystem is a map from paths to optional byte
lists, the network is an oracle from attempt numbers to transport outcomes, and
Go strings are Lean strings (bytes modelled as characters, adequate for the
ASCII inputs exercised here).  Helpers from the repository's `utils` package
are not part of the sources; each such helper is modelled from the spec and
marked as such in its doc comment.
-/

namespace CulturedDownloader

/-- A cookie as used by `CallRequest` (request.go:28-32): only the domain is
consulted for the attach decision; name/value ride along. -/
structure Cookie where
  domain : String
  name : String
  value : String
  deriving DecidableEq, Repr

/-- `leadsWith pre l` is true when `pre` is an initial run of `l`
(used to model Go `strings.Contains`). -/
def leadsWith : List Char → List Char → Bool
  | [], _ => true
  | _ :: _, [] => false
  | a :: as, b :: bs => a == b && leadsWith as bs

/-- `containsSub sub l` is true when `sub` occurs contiguously inside `l`. -/
def containsSub (sub : List Char) : List Char → Bool
  | [] => sub.isEmpty
  | c :: t => leadsWith sub (c :: t) || containsSub sub t

/-- Go `strings.Contains s sub` (substring test on the raw string). -/
def strContains (s sub : String) : Bool :=
  containsSub sub.toList s.toList

/-- request.go:28-32: each cookie whose `Domain` is a substring of the raw
target URL string is added to the outgoing request. -/
def attachCookies (url : String) (cookies : List Cookie) : List Cookie :=
  cookies.filter (fun c => strContains url c.domain)

/-- The list of values stored under key `k` in an ordered key-value list
(models the per-key view of Go `url.Values`). -/
def valuesOf (k : String) (l : List (String × String)) : List String :=
  (l.filter (fun kv => kv.1 == k)).map (fun kv => kv.2)

/-- request.go:43-49: when params are supplied, each one is added to the
existing query via `url.Values.Add`, which appends under its key; the merged
values are re-encoded.  `url.Values` is modelled as an ordered key-value list
(`Encode`'s key sorting is abstracted away; the per-key value lists are what
the claims are about). -/
def mergeParams (query params : List (String × String)) : List (String × String) :=
  if params.isEmpty then query else query ++ params

/-- The merge as the claim words it: a supplied parameter overwrites every
existing parameter of the same key, other existing parameters are preserved. -/
def claimedMergeOverwrite (query params : List (String × String)) : List (String × String) :=
  (query.filter (fun kv => (params.filter (fun pv => pv.1 == kv.1)).isEmpty)) ++ params

/-- Splits the reversed character list of a path into its reversed-extension
part and the remaining stem, scanning from the end of the path and stopping at
a path separator, exactly as Go `filepath.Ext` does. -/
def extSplitAux (acc : List Char) : List Char → Option (List Char × List Char)
  | [] => none
  | c :: rest =>
    if c = '/' then none
    else if c = '.' then some (c :: acc, rest)
    else extSplitAux (c :: acc) rest

/-- Go `filepath.Ext p`: the suffix of the final path element starting at its
last dot, or `""` when the final element has no dot. -/
def filepathExt (p : String) : String :=
  match extSplitAux [] p.toList.reverse with
  | none => ""
  | some (e, _) => String.mk e

/-- Modelled from the spec: `utils.RemoveExtFromFilename` (the `utils` package
is not among the sources) strips "any existing extension suffix" from a name,
i.e. removes the `filepath.Ext` suffix. -/
def RemoveExtFromFilename (p : String) : String :=
  match extSplitAux [] p.toList.reverse with
  | none => p
  | some (_, stemRev) => String.mk stemRev.reverse

/-- Go `strings.ToLower`, character-wise (ASCII; adequate for the inputs
exercised here). -/
def strToLower (s : String) : String :=
  String.mk (s.toList.map Char.toLower)

/-- Drops a leading `?`-query part of a URL string. -/
def dropQueryAux : List Char → List Char
  | [] => []
  | c :: rest => if c = '?' then [] else c :: dropQueryAux rest

/-- Collects the current path segment, restarting at each slash. -/
def lastSegmentAux (acc : List Char) : List Char → List Char
  | [] => acc.reverse
  | c :: rest => if c = '/' then lastSegmentAux [] rest else lastSegmentAux (c :: acc) rest

/-- Modelled from the spec: `utils.GetLastPartOfURL` (the `utils` package is
not among the sources) returns the URL's "last path segment": the text after
the final slash, with any `?`-query component excluded. -/
def GetLastPartOfURL (s : String) : String :=
  String.mk (lastSegmentAux [] (dropQueryAux s.toList))

/-- Value of one hexadecimal digit, upper or lower case. -/
def hexDigitVal (c : Char) : Option Nat :=
  if '0' ≤ c ∧ c ≤ '9' then some (c.toNat - '0'.toNat)
  else if 'a' ≤ c ∧ c ≤ 'f' then some (c.toNat - 'a'.toNat + 10)
  else if 'A' ≤ c ∧ c ≤ 'F' then some (c.toNat - 'A'.toNat + 10)
  else none

/-- Go `url.PathUnescape` on the character level: every `%XY` hex escape is
decoded, a malformed escape is an error, `+` is left alone. -/
def pathUnescapeAux : List Char → Option (List Char)
  | [] => some []
  | '%' :: rest =>
    match rest with
    | a :: b :: rest2 =>
      match hexDigitVal a, hexDigitVal b with
      | some x, some y => (pathUnescapeAux rest2).map (fun t => Char.ofNat (16 * x + y) :: t)
      | _, _ => none
    | _ => none
  | c :: rest => (pathUnescapeAux rest).map (fun t => c :: t)

/-- Go `url.PathUnescape` (request.go:87); `none` models the error case, which
request.go:89 turns into a panic. -/
def PathUnescape (s : String) : Option String :=
  (pathUnescapeAux s.toList).map String.mk

/-- Drops leading slashes of a (reversed) character list. -/
def dropLeadingSlashes : List Char → List Char
  | [] => []
  | c :: rest => if c = '/' then dropLeadingSlashes rest else c :: rest

/-- Go `filepath.Join dir name` for a non-empty `dir`: trailing separators of
`dir` are dropped and the parts are joined with a single slash.  (The full
`Clean` normalization of dot segments is not modelled; the paths exercised
here are already clean.) -/
def filepathJoin (dir name : String) : String :=
  if dir = "" then name
  else String.mk ((dropLeadingSlashes dir.toList.reverse).reverse ++ ('/' :: name.toList))

/-- request.go:85-99: destination resolution of `DownloadURL`.  A descriptor
without an extension is a directory: the whole final response URL is
path-unescaped, its last segment extracted, the segment's extension stripped
and re-appended lower-cased, and the result joined to the directory.  A
descriptor with an extension keeps its own path with the extension
lower-cased.  `none` models the panic on a failed unescape (request.go:89). -/
def resolvePath (filePath : String) (finalURL : String) : Option String :=
  if filepathExt filePath = "" then
    match PathUnescape finalURL with
    | none => none
    | some unescaped =>
      let filename := GetLastPartOfURL unescaped
      some (filepathJoin filePath
        (RemoveExtFromFilename filename ++ strToLower (filepathExt filename)))
  else
    some (RemoveExtFromFilename filePath ++ strToLower (filepathExt filePath))

/-- The directory-case filename derivation as the claim words it: take the
last path segment of the response URL, URL-unescape that segment, strip its
extension, and re-append the response URL's extension lower-cased. -/
def claimedDeriveFilename (finalURL : String) : Option String :=
  (PathUnescape (GetLastPartOfURL finalURL)).map
    (fun seg => RemoveExtFromFilename seg ++ strToLower (filepathExt finalURL))

/-- The claim's full directory-case resolution: the derived filename joined to
the destination directory. -/
def claimedResolveDir (dir finalURL : String) : Option String :=
  (claimedDeriveFilename finalURL).map (fun n => filepathJoin dir n)

/-- The amended directory-case derivation: URL-unescape the whole response URL
first, then take its last path segment, strip the segment's extension and
re-append the segment's own extension lower-cased. -/
def amendedDeriveFilename (finalURL : String) : Option String :=
  (PathUnescape finalURL).map
    (fun u =>
      let seg := GetLastPartOfURL u
      RemoveExtFromFilename seg ++ strToLower (filepathExt seg))

/-- An HTTP response as far as this engine observes it: the status code, the
final redirect-resolved request URL (`res.Request.URL.String()`), and the body
bytes. -/
structure Response where
  statusCode : Nat
  finalURL : String
  body : List Nat
  deriving DecidableEq, Repr

/-- The outcome of one `client.Do` call: a transport error or a response. -/
inductive DoOutcome where
  | failure (e : String)
  | success (r : Response)
  deriving DecidableEq, Repr

/-- What `CallRequest` produces: the returned response and error values, plus
two instrumented observations — how many `client.Do` attempts were issued and
which non-fatal messages were logged via `utils.LogError`. -/
structure CallResult where
  resp : Option Response
  errVal : Option String
  attempts : Nat
  logMsgs : List String
  deriving DecidableEq, Repr

/-- request.go:65: the failure message logged when all retries are spent. -/
def requestFailMsg (url : String) (retries : Nat) : String :=
  "failed to send a request to " ++ url ++ " after " ++ toString retries ++ " retries"

/-- request.go:54-67: the retry loop of `CallRequest`, driven by a network
oracle `net` giving the outcome of each 1-indexed `client.Do` attempt.  An
attempt succeeds when the transport returns a response and (status checking is
off or the status is exactly 200).  On exhaustion the source executes
`return nil, err` (request.go:67) — but the `err` in scope there is the
function-level variable from `http.NewRequest` (necessarily `nil` at that
point), because `resp, err := client.Do(req)` at request.go:55 declares a new
loop-local `err` that shadows it; so the returned error is `none`, never the
last transport error, and the same `nil` error is what gets logged. -/
def callRequestLoop (net : Nat → DoOutcome) (checkStatus : Bool) (url : String)
    (retryTotal : Nat) : Nat → Nat → CallResult
  | _, 0 =>
    { resp := none, errVal := none, attempts := 0,
      logMsgs := [requestFailMsg url retryTotal] }
  | i, fuel + 1 =>
    match net i with
    | .success r =>
      if !checkStatus || r.statusCode == 200 then
        { resp := some r, errVal := none, attempts := 1, logMsgs := [] }
      else
        let rest := callRequestLoop net checkStatus url retryTotal (i + 1) fuel
        { rest with attempts := rest.attempts + 1 }
    | .failure _ =>
      let rest := callRequestLoop net checkStatus url retryTotal (i + 1) fuel
      { rest with attempts := rest.attempts + 1 }

/-- request.go:20-68: `CallRequest`.  `reqErr` models a failure of
`http.NewRequest` (request.go:22-25), which returns before any attempt; the
retry bound `retries` stands for the constant `utils.RETRY_COUNTER` from the
missing `utils` package.  The inter-attempt `time.Sleep` has no observable
effect in this model. -/
def CallRequest (reqErr : Option String) (net : Nat → DoOutcome) (checkStatus : Bool)
    (url : String) (retries : Nat) : CallResult :=
  match reqErr with
  | some e => { resp := none, errVal := some e, attempts := 0, logMsgs := [] }
  | none => callRequestLoop net checkStatus url retries 1 retries

/-- The filesystem: a map from paths to file contents; `none` means absent. -/
def FS : Type := String → Option (List Nat)

/-- The empty filesystem. -/
def fsEmpty : FS := fun _ => none

/-- Point update of the filesystem (`some bytes` writes, `none` removes). -/
def fsSet (fs : FS) (p : String) (v : Option (List Nat)) : FS :=
  fun q => if q = p then v else fs q

/-- Modelled from the spec: `utils.CheckIfFileIsEmpty` (the `utils` package is
not among the sources) reports a file as empty when it is absent or has size
zero; only a present non-empty file counts as a completed download. -/
def CheckIfFileIsEmpty (fs : FS) (p : String) : Bool :=
  match fs p with
  | none => true
  | some bytes => bytes.isEmpty

/-- How a `DownloadURL` invocation ends: normal return without error, normal
return of an error value, or a runtime panic that kills the process. -/
inductive DlOutcome where
  | ok
  | errOut (e : String)
  | panicked
  deriving DecidableEq, Repr

/-- The observable result of one `DownloadURL` invocation. -/
structure DlResult where
  outcome : DlOutcome
  fs : FS
  logs : List String
  attempts : Nat

/-- request.go:118: the message logged when the body write fails. -/
def downloadFailMsg (fileURL e : String) : String :=
  "failed to download " ++ fileURL ++ " due to " ++ e

/-- request.go:78-124 after the dispatch: `DownloadURL`'s handling of the
`CallRequest` result.  In order: a non-nil error is returned (request.go:79-81);
otherwise `defer res.Body.Close()` at request.go:82 dereferences the response,
which panics when the dispatch exhausted its retries and produced `(nil, nil)`;
the destination is resolved (request.go:85-99, panic on a failed unescape);
a present non-empty file short-circuits to success (request.go:102-104);
otherwise `os.Create` truncates the file and the body is streamed into it —
on a write error the file is removed, the failure logged, and `nil` returned
(request.go:114-121), on success the file is left in place.  `writeErr`
models the outcome of `io.Copy`. -/
def downloadFromCall (fileURL filePath : String) (call : CallResult)
    (writeErr : Option String) (fs : FS) : DlResult :=
  match call.errVal with
  | some e => { outcome := .errOut e, fs := fs, logs := call.logMsgs, attempts := call.attempts }
  | none =>
    match call.resp with
    | none => { outcome := .panicked, fs := fs, logs := call.logMsgs, attempts := call.attempts }
    | some res =>
      match resolvePath filePath res.finalURL with
      | none => { outcome := .panicked, fs := fs, logs := call.logMsgs, attempts := call.attempts }
      | some fp =>
        if CheckIfFileIsEmpty fs fp then
          let fs1 := fsSet fs fp (some [])
          match writeErr with
          | some e =>
            { outcome := .ok, fs := fsSet fs1 fp none,
              logs := call.logMsgs ++ [downloadFailMsg fileURL e],
              attempts := call.attempts }
          | none =>
            { outcome := .ok, fs := fsSet fs1 fp (some res.body),
              logs := call.logMsgs, attempts := call.attempts }
        else { outcome := .ok, fs := fs, logs := call.logMsgs, attempts := call.attempts }

/-- request.go:73-124: `DownloadURL` — dispatch with status checking enabled,
then handle the result.  (The 25-minute timeout at request.go:74 only
configures the client and is not otherwise observable.) -/
def DownloadURL (reqErr : Option String) (net : Nat → DoOutcome) (retries : Nat)
    (fileURL filePath : String) (writeErr : Option String) (fs : FS) : DlResult :=
  downloadFromCall fileURL filePath (CallRequest reqErr net true fileURL retries) writeErr fs

/-- The external progress bar: a total and a completed count
(modelled from the spec: `utils.GetProgressBar` is not among the sources; the
spec gives it a total, a current count, and an increment operation). -/
structure ProgressBar where
  total : Nat
  count : Nat
  deriving DecidableEq, Repr

/-- Modelled from the spec: the progress sink starts with the given total and
a zero completed count. -/
def GetProgressBar (total : Nat) : ProgressBar :=
  { total := total, count := 0 }

/-- `bar.Add n`: advance the completed count. -/
def barAdd (bar : ProgressBar) (n : Nat) : ProgressBar :=
  { bar with count := bar.count + n }

/-- One job of a parallel batch: the `url`/`filepath` entries of the Go map
(request.go:151), together with that job's environment — its request-build
outcome, its network oracle, and its write outcome. -/
structure JobRun where
  url : String
  filePath : String
  reqErr : Option String
  net : Nat → DoOutcome
  writeErr : Option String

/-- Whether a job's fetch panics: `CallRequest` came back as `(nil, nil)`
(exhausted retries) or the destination resolution fails to unescape.  Neither
condition depends on the filesystem. -/
def fetchPanics (retries : Nat) (j : JobRun) : Bool :=
  let c := CallRequest j.reqErr j.net true j.url retries
  match c.errVal, c.resp with
  | some _, _ => false
  | none, none => true
  | none, some r => (resolvePath j.filePath r.finalURL).isNone

/-- request.go:143-152: the per-job work of `DownloadURLsParallel`.  Each
worker runs `DownloadURL`, discards its return value, and ticks the bar once —
whether the job succeeded or failed.  A panic inside a goroutine kills the
whole process, so a panicking job halts the run with no tick (third component
`true`).  Scheduling is modelled sequentially: the slot pool bounds only which
jobs overlap in time, and neither the progress count nor any per-job result
depends on the interleaving (each job owns its own destination path). -/
def runJobs (retries : Nat) : List JobRun → ProgressBar → FS → ProgressBar × FS × Bool
  | [], bar, fs => (bar, fs, false)
  | j :: rest, bar, fs =>
    let r := DownloadURL j.reqErr j.net retries j.url j.filePath j.writeErr fs
    match r.outcome with
    | .panicked => (bar, r.fs, true)
    | .ok => runJobs retries rest (barAdd bar 1) r.fs
    | .errOut _ => runJobs retries rest (barAdd bar 1) r.fs

/-- request.go:129-155: `DownloadURLsParallel` builds a bar with
total = number of jobs and runs every job.  The `maxConcurrency` clamp at
request.go:130-132 only sizes the slot pool, which the sequential model
abstracts away. -/
def DownloadURLsParallel (retries _maxConcurrency : Nat) (jobs : List JobRun)
    (fs : FS) : ProgressBar × FS × Bool :=
  runJobs retries jobs (GetProgressBar jobs.length) fs

/-- Concrete response for the idempotence-scenario instantiations. -/
def c3res : Response := ⟨200, "https://example.com/report.bin", [1, 2, 3]⟩

/-- Network oracle answering every attempt with `c3res`. -/
def c3net : Nat → DoOutcome := fun _ => DoOutcome.success c3res

/-- Filesystem holding a non-empty completed download at `/out/report.pdf`. -/
def c3fs : FS := fsSet fsEmpty "/out/report.pdf" (some [7])

/-- Concrete response for the write-failure instantiation. -/
def c8res : Response := ⟨200, "http://example.com/dl/a.jpg", [1, 2, 3]⟩

/-- Network oracle answering every attempt with `c8res`. -/
def c8net : Nat → DoOutcome := fun _ => DoOutcome.success c8res

/-- Concrete response for the empty-file-overwrite instantiation. -/
def c10res : Response := ⟨200, "http://example.com/i/b.PNG", [9, 8]⟩

/-- Network oracle answering every attempt with `c10res`. -/
def c10net : Nat → DoOutcome := fun _ => DoOutcome.success c10res

/-- Filesystem holding a zero-byte file at the resolved path `/out/b.png`. -/
def c10fs : FS := fsSet fsEmpty "/out/b.png" (some [])

/-- A job that downloads successfully. -/
def c9job1 : JobRun :=
  { url := "http://example.com/a.png", filePath := "/out/", reqErr := none,
    net := fun _ => DoOutcome.success ⟨200, "http://example.com/a.png", [1]⟩,
    writeErr := none }

/-- A job whose body write fails mid-transfer. -/
def c9job2 : JobRun :=
  { url := "http://example.com/b.png", filePath := "/out/", reqErr := none,
    net := fun _ => DoOutcome.success ⟨200, "http://example.com/b.png", [2]⟩,
    writeErr := some "disk full" }

/-! ## Library-level helper lemmas -/

theorem strToList_mk (l : List Char) : (String.mk l).toList = l := rfl

theorem strMk_append (a b : List Char) :
    String.mk a ++ String.mk b = String.mk (a ++ b) := rfl

/-- The splitter invariant: a successful split reassembles (in reverse) to the
scanned input plus the accumulator. -/
theorem extSplitAux_append (l : List Char) : ∀ (acc e stem : List Char),
    extSplitAux acc l = some (e, stem) → stem.reverse ++ e = l.reverse ++ acc := by
  induction l with
  | nil => intro acc e stem h; simp [extSplitAux] at h
  | cons c rest ih =>
    intro acc e stem h
    by_cases hc : c = '/'
    · simp [extSplitAux, hc] at h
    · by_cases hd : c = '.'
      · rw [extSplitAux, if_neg hc, if_pos hd] at h
        obtain ⟨he, hstem⟩ := Prod.mk.injEq .. ▸ (Option.some.injEq .. ▸ h)
        subst he hstem
        subst hd
        simp
      · rw [extSplitAux, if_neg hc, if_neg hd] at h
        have := ih (c :: acc) e stem h
        rw [this]
        simp

/-- A path is its extension-stripped stem followed by its extension. -/
theorem removeExt_append_ext (p : String) :
    RemoveExtFromFilename p ++ filepathExt p = p := by
  obtain ⟨l⟩ := p
  simp only [RemoveExtFromFilename, filepathExt, strToList_mk]
  cases h : extSplitAux [] l.reverse with
  | none => simp
  | some pair =>
    obtain ⟨e, stem⟩ := pair
    have hre := extSplitAux_append l.reverse [] e stem h
    simp only [List.reverse_reverse, List.append_nil] at hre
    rw [strMk_append, hre]

/-- The returned error of the retry loop is always `none`: the `err` returned
at request.go:67 is the function-scope variable, provably `nil` there, because
the loop-local `err` of request.go:55 shadows it. -/
theorem callRequestLoop_errVal (net : Nat → DoOutcome) (cs : Bool) (url : String)
    (rt : Nat) : ∀ (fuel i : Nat), (callRequestLoop net cs url rt i fuel).errVal = none := by
  intro fuel
  induction fuel with
  | zero => intro i; rfl
  | succ f ih =>
    intro i
    rw [callRequestLoop]
    cases net i with
    | success r =>
      by_cases h : (!cs || r.statusCode == 200) = true
      · simp [h]
      · simp only [Bool.not_eq_true] at h
        simp [h, ih (i + 1)]
    | failure e => simp [ih (i + 1)]

/-- `CallRequest` returns a non-`none` error only when no response is
returned. -/
theorem CallRequest_errVal_of_resp (reqErr : Option String) (net : Nat → DoOutcome)
    (cs : Bool) (url : String) (n : Nat) (r : Response)
    (h : (CallRequest reqErr net cs url n).resp = some r) :
    (CallRequest reqErr net cs url n).errVal = none := by
  cases reqErr with
  | none => exact callRequestLoop_errVal net cs url n n 1
  | some e => simp [CallRequest] at h

/-- With at least one attempt available, the loop issues at least one
`client.Do` call. -/
theorem callRequestLoop_attempts_pos (net : Nat → DoOutcome) (cs : Bool) (url : String)
    (rt i fuel : Nat) (h : 1 ≤ fuel) :
    1 ≤ (callRequestLoop net cs url rt i fuel).attempts := by
  cases fuel with
  | zero => omega
  | succ f =>
    rw [callRequestLoop]
    cases net i with
    | success r =>
      by_cases hs : (!cs || r.statusCode == 200) = true
      · simp [hs]
      · simp only [Bool.not_eq_true] at hs
        simp [hs]
    | failure e => simp

theorem fsSet_same (fs : FS) (p : String) (v : Option (List Nat)) :
    fsSet fs p v p = v := by
  simp [fsSet]

theorem fsSet_other (fs : FS) (p q : String) (v : Option (List Nat)) (h : q ≠ p) :
    fsSet fs p v q = fs q := by
  simp [fsSet, h]

/-- Branch characterization: dispatch produced a response, the destination
resolved, and a non-empty file is already there — the download is skipped. -/
theorem downloadFromCall_skip (fileURL filePath : String) (call : CallResult)
    (res : Response) (fp : String) (writeErr : Option String) (fs : FS)
    (h1 : call.errVal = none) (h2 : call.resp = some res)
    (h3 : resolvePath filePath res.finalURL = some fp)
    (h4 : CheckIfFileIsEmpty fs fp = false) :
    downloadFromCall fileURL filePath call writeErr fs =
      { outcome := .ok, fs := fs, logs := call.logMsgs, attempts := call.attempts } := by
  simp [downloadFromCall, h1, h2, h3, h4]

/-- Branch characterization: nothing (non-empty) at the destination and the
body write fails — create, remove, log, return no error. -/
theorem downloadFromCall_write_failure (fileURL filePath : String) (call : CallResult)
    (res : Response) (fp e : String) (fs : FS)
    (h1 : call.errVal = none) (h2 : call.resp = some res)
    (h3 : resolvePath filePath res.finalURL = some fp)
    (h4 : CheckIfFileIsEmpty fs fp = true) :
    downloadFromCall fileURL filePath call (some e) fs =
      { outcome := .ok, fs := fsSet (fsSet fs fp (some [])) fp none,
        logs := call.logMsgs ++ [downloadFailMsg fileURL e],
        attempts := call.attempts } := by
  simp [downloadFromCall, h1, h2, h3, h4]

/-- Branch characterization: nothing (non-empty) at the destination and the
body write succeeds — create, then the body becomes the file's contents. -/
theorem downloadFromCall_write_ok (fileURL filePath : String) (call : CallResult)
    (res : Response) (fp : String) (fs : FS)
    (h1 : call.errVal = none) (h2 : call.resp = some res)
    (h3 : resolvePath filePath res.finalURL = some fp)
    (h4 : CheckIfFileIsEmpty fs fp = true) :
    downloadFromCall fileURL filePath call none fs =
      { outcome := .ok, fs := fsSet (fsSet fs fp (some [])) fp (some res.body),
        logs := call.logMsgs, attempts := call.attempts } := by
  simp [downloadFromCall, h1, h2, h3, h4]

/-- No branch of the post-dispatch handling ever touches a path that holds a
non-empty file. -/
theorem downloadFromCall_preserves_nonempty (fileURL filePath : String)
    (call : CallResult) (writeErr : Option String) (fs : FS) (q : String)
    (hq : CheckIfFileIsEmpty fs q = false) :
    (downloadFromCall fileURL filePath call writeErr fs).fs q = fs q := by
  cases hE : call.errVal with
  | some e => simp [downloadFromCall, hE]
  | none =>
    cases hR : call.resp with
    | none => simp [downloadFromCall, hE, hR]
    | some res =>
      cases hP : resolvePath filePath res.finalURL with
      | none => simp [downloadFromCall, hE, hR, hP]
      | some fp =>
        by_cases hF : CheckIfFileIsEmpty fs fp = true
        · have hqfp : q ≠ fp := by
            intro hqe
            rw [hqe, hF] at hq
            exact Bool.noConfusion hq
          cases writeErr with
          | some e =>
            simp only [downloadFromCall, hE, hR, hP, hF, if_true]
            rw [fsSet_other _ _ _ _ hqfp, fsSet_other _ _ _ _ hqfp]
          | none =>
            simp only [downloadFromCall, hE, hR, hP, hF, if_true]
            rw [fsSet_other _ _ _ _ hqfp, fsSet_other _ _ _ _ hqfp]
        · simp only [Bool.not_eq_true] at hF
          simp [downloadFromCall, hE, hR, hP, hF]

/-- The attempt count observed by `DownloadURL` is the dispatcher's. -/
theorem downloadFromCall_attempts (fileURL filePath : String) (call : CallResult)
    (writeErr : Option String) (fs : FS) :
    (downloadFromCall fileURL filePath call writeErr fs).attempts = call.attempts := by
  cases hE : call.errVal with
  | some e => simp [downloadFromCall, hE]
  | none =>
    cases hR : call.resp with
    | none => simp [downloadFromCall, hE, hR]
    | some res =>
      cases hP : resolvePath filePath res.finalURL with
      | none => simp [downloadFromCall, hE, hR, hP]
      | some fp =>
        by_cases hF : CheckIfFileIsEmpty fs fp = true
        · cases writeErr <;> simp [downloadFromCall, hE, hR, hP, hF]
        · simp only [Bool.not_eq_true] at hF
          simp [downloadFromCall, hE, hR, hP, hF]

/-- A fetch that does not panic cannot end in the panicked outcome, whatever
the filesystem. -/
theorem fetch_no_panic_outcome (retries : Nat) (j : JobRun) (fs : FS)
    (h : fetchPanics retries j = false) :
    (DownloadURL j.reqErr j.net retries j.url j.filePath j.writeErr fs).outcome ≠
      DlOutcome.panicked := by
  cases hE : (CallRequest j.reqErr j.net true j.url retries).errVal with
  | some e => simp [DownloadURL, downloadFromCall, hE]
  | none =>
    cases hR : (CallRequest j.reqErr j.net true j.url retries).resp with
    | none =>
      exfalso
      simp only [fetchPanics, hE, hR] at h
      exact Bool.noConfusion h
    | some r =>
      cases hP : resolvePath j.filePath r.finalURL with
      | none =>
        exfalso
        simp only [fetchPanics, hE, hR, hP] at h
        simp at h
      | some fp =>
        by_cases hF : CheckIfFileIsEmpty fs fp = true
        · cases hW : j.writeErr <;>
            simp [DownloadURL, downloadFromCall, hE, hR, hP, hF, hW]
        · simp only [Bool.not_eq_true] at hF
          simp [DownloadURL, downloadFromCall, hE, hR, hP, hF]

/-- Every executed job, successful or not, ticks the bar exactly once; jobs
never change the total; and with no panicking job the run terminates
normally. -/
theorem runJobs_spec (retries : Nat) (jobs : List JobRun) :
    ∀ (bar : ProgressBar) (fs : FS),
      (∀ j ∈ jobs, fetchPanics retries j = false) →
      (runJobs retries jobs bar fs).1.total = bar.total ∧
      (runJobs retries jobs bar fs).1.count = bar.count + jobs.length ∧
      (runJobs retries jobs bar fs).2.2 = false := by
  induction jobs with
  | nil => intro bar fs _; exact ⟨rfl, rfl, rfl⟩
  | cons j rest ih =>
    intro bar fs h
    have hj : fetchPanics retries j = false := h j (List.mem_cons_self j rest)
    have hrest : ∀ j2 ∈ rest, fetchPanics retries j2 = false :=
      fun j2 hj2 => h j2 (List.mem_cons_of_mem j hj2)
    have hnp := fetch_no_panic_outcome retries j fs hj
    rw [runJobs]
    cases ho : (DownloadURL j.reqErr j.net retries j.url j.filePath j.writeErr fs).outcome with
    | panicked => exact absurd ho hnp
    | ok =>
      have := ih (barAdd bar 1) (DownloadURL j.reqErr j.net retries j.url j.filePath j.writeErr fs).fs hrest
      refine ⟨this.1, ?_, this.2.2⟩
      rw [this.2.1]
      simp [barAdd]
      omega
    | errOut e =>
      have := ih (barAdd bar 1) (DownloadURL j.reqErr j.net retries j.url j.filePath j.writeErr fs).fs hrest
      refine ⟨this.1, ?_, this.2.2⟩
      rw [this.2.1]
      simp [barAdd]
      omega

/-! ## The claims -/

/-- C1: the claim says that on exhausting all retries `CallRequest` returns
the last attempt's transport error (nil response, failure logged).  Evaluated
at a failing input — status checking on, 4 retries, every `client.Do` attempt
a transport error "connection refused" — the code instead returns a `nil`
error alongside the `nil` response: the `resp, err :=` at request.go:55
declares a loop-local `err` shadowing the function-scope one, so the `err`
returned (and logged) at request.go:66-67 is the `NewRequest` error, which is
necessarily `nil` there.  The last transport error is unrecoverable by the
caller. -/
theorem claimC1_exhausted_retries_lose_last_error :
    CallRequest none (fun _ => DoOutcome.failure "connection refused") true
        "https://example.com/file" 4 =
      { resp := none, errVal := none, attempts := 4,
        logMsgs := [requestFailMsg "https://example.com/file" 4] } ∧
    (CallRequest none (fun _ => DoOutcome.failure "connection refused") true
        "https://example.com/file" 4).errVal ≠ some "connection refused" :=
  ⟨rfl, by decide⟩

/-- C2: the claim says a job whose dispatch fails on every attempt ends in a
logged failure, no file change, and a normal return that leaves other jobs
running.  Evaluated at such a job (every attempt a transport failure), the
code does log the failure and touches no file, but does not return: the
exhausted `CallRequest` yields `(nil, nil)`, the `err != nil` guard at
request.go:79 passes, and `res.Body` at request.go:82 dereferences the nil
response — a panic that kills the whole process, batch included. -/
theorem claimC2_exhausted_dispatch_panics :
    (DownloadURL none (fun _ => DoOutcome.failure "timeout") 4
        "https://example.com/f.jpg" "/out/" none fsEmpty).outcome = DlOutcome.panicked ∧
    (DownloadURL none (fun _ => DoOutcome.failure "timeout") 4
        "https://example.com/f.jpg" "/out/" none fsEmpty).fs = fsEmpty ∧
    (DownloadURL none (fun _ => DoOutcome.failure "timeout") 4
        "https://example.com/f.jpg" "/out/" none fsEmpty).logs =
      [requestFailMsg "https://example.com/f.jpg" 4] :=
  ⟨rfl, rfl, rfl⟩

/-- C3 counterexample: a job whose resolved destination `/out/report.pdf`
already holds a non-empty file, with a network that fails every attempt.  The
claim as stated requires no network request to be issued and a success return;
the code issues all 4 attempts (the dispatch at request.go:78 precedes the
file check at request.go:102) and then panics on the nil response, so neither
part holds. -/
theorem claimC3_counterexample :
    (DownloadURL none (fun _ => DoOutcome.failure "timeout") 4
        "https://example.com/report.bin" "/out/report.PDF" none c3fs).attempts = 4 ∧
    (DownloadURL none (fun _ => DoOutcome.failure "timeout") 4
        "https://example.com/report.bin" "/out/report.PDF" none c3fs).outcome =
      DlOutcome.panicked :=
  ⟨rfl, rfl⟩

/-- C3 (amended): for every job whose resolved destination file already exists
and is non-empty, `DownloadURL` leaves that file byte-for-byte unchanged — a
present non-empty file is never rewritten by any operation — but it does issue
the network dispatch first (at least one attempt whenever the request builds
and the retry bound is positive); when the dispatch yields a response, it
returns success with the whole filesystem untouched. -/
theorem claimC3_nonempty_destination (reqErr : Option String) (net : Nat → DoOutcome)
    (retries : Nat) (fileURL filePath : String) (writeErr : Option String) (fs : FS) :
    (∀ q, CheckIfFileIsEmpty fs q = false →
      (DownloadURL reqErr net retries fileURL filePath writeErr fs).fs q = fs q) ∧
    (reqErr = none → 1 ≤ retries →
      1 ≤ (DownloadURL reqErr net retries fileURL filePath writeErr fs).attempts) ∧
    (∀ res fp, (CallRequest reqErr net true fileURL retries).resp = some res →
      resolvePath filePath res.finalURL = some fp →
      CheckIfFileIsEmpty fs fp = false →
      (DownloadURL reqErr net retries fileURL filePath writeErr fs).outcome = DlOutcome.ok ∧
      (DownloadURL reqErr net retries fileURL filePath writeErr fs).fs = fs) := by
  refine ⟨?_, ?_, ?_⟩
  · intro q hq
    exact downloadFromCall_preserves_nonempty fileURL filePath _ writeErr fs q hq
  · intro hre hr
    subst hre
    simp only [DownloadURL, downloadFromCall_attempts]
    exact callRequestLoop_attempts_pos net true fileURL retries 1 retries hr
  · intro res fp hresp hfp hne
    have hev := CallRequest_errVal_of_resp reqErr net true fileURL retries res hresp
    have hs := downloadFromCall_skip fileURL filePath
      (CallRequest reqErr net true fileURL retries) res fp writeErr fs hev hresp hfp hne
    have hd : DownloadURL reqErr net retries fileURL filePath writeErr fs =
        { outcome := .ok, fs := fs,
          logs := (CallRequest reqErr net true fileURL retries).logMsgs,
          attempts := (CallRequest reqErr net true fileURL retries).attempts } := hs
    rw [hd]
    exact ⟨rfl, rfl⟩

/-- C3 witness: with a 200 response and `/out/report.pdf` already holding
bytes, the run returns success, changes nothing on disk, and still issued a
network attempt. -/
theorem claimC3_witness :
    (DownloadURL none c3net 4 "https://example.com/report.bin" "/out/report.PDF"
      none c3fs).outcome = DlOutcome.ok ∧
    (DownloadURL none c3net 4 "https://example.com/report.bin" "/out/report.PDF"
      none c3fs).fs = c3fs ∧
    1 ≤ (DownloadURL none c3net 4 "https://example.com/report.bin" "/out/report.PDF"
      none c3fs).attempts := by
  have h := claimC3_nonempty_destination none c3net 4 "https://example.com/report.bin"
    "/out/report.PDF" none c3fs
  have h3 := h.2.2 c3res "/out/report.pdf" (by decide) (by decide) (by decide)
  exact ⟨h3.1, h3.2, h.2.1 rfl (by decide)⟩

/-- C4 counterexample: for the response URL
`http://example.com/pic/a%2Fb.jpg` the code (which path-unescapes the whole
URL at request.go:87 before taking the last segment at request.go:91) yields
`/out/b.jpg`, while the pipeline in the claim's order — last segment first,
then unescape — yields `/out/a/b.jpg`. -/
theorem claimC4_counterexample :
    resolvePath "/out/" "http://example.com/pic/a%2Fb.jpg" = some "/out/b.jpg" ∧
    claimedResolveDir "/out/" "http://example.com/pic/a%2Fb.jpg" = some "/out/a/b.jpg" ∧
    resolvePath "/out/" "http://example.com/pic/a%2Fb.jpg" ≠
      claimedResolveDir "/out/" "http://example.com/pic/a%2Fb.jpg" := by
  decide

/-- C4 (amended): for every job whose destination descriptor has no file
extension, `DownloadURL` derives the output filename by URL-unescaping the
final redirect-resolved response URL first, then taking the last path segment
of the unescaped URL, stripping that segment's extension, and re-appending the
segment's own extension lower-cased, joined to the destination directory; the
claim's example still holds: destination `/out/` with response URL ending in
`My%20File.final.JPG` yields `/out/My File.final.jpg`. -/
theorem claimC4_directory_derivation (dir url : String) (h : filepathExt dir = "") :
    resolvePath dir url =
      (amendedDeriveFilename url).map (fun n => filepathJoin dir n) := by
  simp only [resolvePath, amendedDeriveFilename]
  rw [if_pos h]
  cases PathUnescape url with
  | none => rfl
  | some u => rfl

/-- C4 witness: the claim's own scenario, evaluated. -/
theorem claimC4_witness :
    filepathExt "/out/" = "" ∧
    resolvePath "/out/" "http://example.com/dl/My%20File.final.JPG" =
      some "/out/My File.final.jpg" := by
  refine ⟨by decide, ?_⟩
  rw [claimC4_directory_derivation "/out/" "http://example.com/dl/My%20File.final.JPG"
    (by decide)]
  decide

/-- C5: for every job whose destination descriptor has a file extension, the
resolved path is the supplied path with its own extension lower-cased — the
response URL is ignored in this branch (request.go:94-99).  The third conjunct
identifies the supplied path with its stem-plus-extension decomposition, so
the second says exactly "the supplied path with its extension lower-cased". -/
theorem claimC5_explicit_path (p url url2 : String) (h : ¬ filepathExt p = "") :
    resolvePath p url = resolvePath p url2 ∧
    resolvePath p url = some (RemoveExtFromFilename p ++ strToLower (filepathExt p)) ∧
    RemoveExtFromFilename p ++ filepathExt p = p := by
  refine ⟨?_, ?_, removeExt_append_ext p⟩
  · simp only [resolvePath]
    rw [if_neg h, if_neg h]
  · simp only [resolvePath]
    rw [if_neg h]

/-- C5 witness: the claim's scenario — destination `/out/report.PDF` resolves
to `/out/report.pdf` whatever the response URL. -/
theorem claimC5_witness :
    (¬ filepathExt "/out/report.PDF" = "") ∧
    resolvePath "/out/report.PDF" "https://example.com/a.bin" = some "/out/report.pdf" ∧
    resolvePath "/out/report.PDF" "https://example.com/a.bin" =
      resolvePath "/out/report.PDF" "https://example.com/b.jpg" := by
  have h : ¬ filepathExt "/out/report.PDF" = "" := by decide
  have hc := claimC5_explicit_path "/out/report.PDF" "https://example.com/a.bin"
    "https://example.com/b.jpg" h
  refine ⟨h, ?_, hc.1⟩
  rw [hc.2.1]
  decide

/-- C6: a cookie is attached iff its domain string is a substring of the raw
target URL (request.go:28-32); in particular a cookie for `example.com` is
attached to a URL on host `notexample.com`. -/
theorem claimC6_cookie_substring_attach :
    (∀ (url : String) (cookies : List Cookie) (c : Cookie),
      c ∈ attachCookies url cookies ↔ c ∈ cookies ∧ strContains url c.domain = true) ∧
    attachCookies "https://notexample.com/file" [⟨"example.com", "sess", "v"⟩] =
      [⟨"example.com", "sess", "v"⟩] := by
  constructor
  · intro url cookies c
    simp [attachCookies, List.mem_filter]
  · decide

/-- C7 counterexample: with an existing query `a=1` and a supplied parameter
`a=2`, the code's merge (via `url.Values.Add`, request.go:46) keeps both
values under `a`, whereas the claim's overwrite semantics keeps only `2`. -/
theorem claimC7_counterexample :
    valuesOf "a" (mergeParams [("a", "1")] [("a", "2")]) = ["1", "2"] ∧
    valuesOf "a" (claimedMergeOverwrite [("a", "1")] [("a", "2")]) = ["2"] ∧
    mergeParams [("a", "1")] [("a", "2")] ≠ claimedMergeOverwrite [("a", "1")] [("a", "2")] := by
  decide

/-- C7 (amended): when a parameter map is supplied, every query parameter
already present in the URL is preserved and every supplied parameter is
appended under its key, coexisting with — not replacing — any existing
parameter of the same key: under every key the merged value list is the
existing values followed by the supplied ones. -/
theorem claimC7_params_appended (k : String) (query params : List (String × String)) :
    valuesOf k (mergeParams query params) = valuesOf k query ++ valuesOf k params := by
  cases params with
  | nil => simp [mergeParams, valuesOf]
  | cons p ps => simp [mergeParams, valuesOf, List.filter_append]

/-- C8: for every job whose body write fails mid-transfer, `DownloadURL`
deletes the partially written file (nothing remains at the resolved path and
no other path changes), logs the non-fatal failure message, and returns no
error (request.go:114-121). -/
theorem claimC8_write_failure_cleanup (reqErr : Option String) (net : Nat → DoOutcome)
    (retries : Nat) (fileURL filePath e : String) (fs : FS) (res : Response) (fp : String)
    (hresp : (CallRequest reqErr net true fileURL retries).resp = some res)
    (hfp : resolvePath filePath res.finalURL = some fp)
    (hempty : CheckIfFileIsEmpty fs fp = true) :
    (DownloadURL reqErr net retries fileURL filePath (some e) fs).outcome = DlOutcome.ok ∧
    (DownloadURL reqErr net retries fileURL filePath (some e) fs).fs fp = none ∧
    (∀ q, q ≠ fp → (DownloadURL reqErr net retries fileURL filePath (some e) fs).fs q = fs q) ∧
    downloadFailMsg fileURL e ∈ (DownloadURL reqErr net retries fileURL filePath (some e) fs).logs := by
  have hev := CallRequest_errVal_of_resp reqErr net true fileURL retries res hresp
  have hw := downloadFromCall_write_failure fileURL filePath
    (CallRequest reqErr net true fileURL retries) res fp e fs hev hresp hfp hempty
  have hd : DownloadURL reqErr net retries fileURL filePath (some e) fs =
      { outcome := .ok, fs := fsSet (fsSet fs fp (some [])) fp none,
        logs := (CallRequest reqErr net true fileURL retries).logMsgs ++
          [downloadFailMsg fileURL e],
        attempts := (CallRequest reqErr net true fileURL retries).attempts } := hw
  rw [hd]
  refine ⟨rfl, fsSet_same _ _ _, ?_, ?_⟩
  · intro q hq
    show fsSet (fsSet fs fp (some [])) fp none q = fs q
    rw [fsSet_other _ _ _ _ hq, fsSet_other _ _ _ _ hq]
  · simp

/-- C8 witness: a write failure on a fresh download of `/out/a.jpg` leaves no
file behind and logs the failure while reporting success. -/
theorem claimC8_witness :
    (DownloadURL none c8net 4 "http://example.com/dl/a.jpg" "/out/" (some "disk full")
      fsEmpty).outcome = DlOutcome.ok ∧
    (DownloadURL none c8net 4 "http://example.com/dl/a.jpg" "/out/" (some "disk full")
      fsEmpty).fs "/out/a.jpg" = none ∧
    downloadFailMsg "http://example.com/dl/a.jpg" "disk full" ∈
      (DownloadURL none c8net 4 "http://example.com/dl/a.jpg" "/out/" (some "disk full")
        fsEmpty).logs := by
  have h := claimC8_write_failure_cleanup none c8net 4 "http://example.com/dl/a.jpg" "/out/"
    "disk full" fsEmpty c8res "/out/a.jpg" (by decide) (by decide) (by decide)
  exact ⟨h.1, h.2.1, h.2.2.2⟩

/-- C9: `DownloadURLsParallel` initializes the progress sink with
total = number of jobs and ticks it exactly once per job whether the job
succeeds or fails, so the final count equals the batch size when the call
returns (i.e. when no job's fetch panics — a panicking job kills the process
instead, see C2). -/
theorem claimC9_progress_count (retries maxConcurrency : Nat) (jobs : List JobRun)
    (fs : FS) (h : ∀ j ∈ jobs, fetchPanics retries j = false) :
    (DownloadURLsParallel retries maxConcurrency jobs fs).1.total = jobs.length ∧
    (DownloadURLsParallel retries maxConcurrency jobs fs).1.count = jobs.length ∧
    (DownloadURLsParallel retries maxConcurrency jobs fs).2.2 = false := by
  have hs := runJobs_spec retries jobs (GetProgressBar jobs.length) fs h
  refine ⟨hs.1, ?_, hs.2.2⟩
  have := hs.2.1
  simpa [GetProgressBar] using this

/-- C9 witness: a two-job batch — one successful download, one failed write —
ends with count 2 of total 2. -/
theorem claimC9_witness :
    (∀ j ∈ [c9job1, c9job2], fetchPanics 4 j = false) ∧
    (DownloadURLsParallel 4 3 [c9job1, c9job2] fsEmpty).1.total = 2 ∧
    (DownloadURLsParallel 4 3 [c9job1, c9job2] fsEmpty).1.count = 2 ∧
    (DownloadURLsParallel 4 3 [c9job1, c9job2] fsEmpty).2.2 = false := by
  have hp : ∀ j ∈ [c9job1, c9job2], fetchPanics 4 j = false := by
    intro j hj
    rcases List.mem_cons.mp hj with rfl | hj2
    · rfl
    · rcases List.mem_cons.mp hj2 with rfl | hj3
      · rfl
      · exact absurd hj3 (List.not_mem_nil j)
  have h := claimC9_progress_count 4 3 [c9job1, c9job2] fsEmpty hp
  exact ⟨hp, h.1, h.2.1, h.2.2⟩

/-- C10: a pre-existing zero-byte file at the resolved destination is not
treated as a completed download: `DownloadURL` re-creates (truncates) it and
writes the fresh response body over it (request.go:102-110). -/
theorem claimC10_empty_file_redownloaded (reqErr : Option String) (net : Nat → DoOutcome)
    (retries : Nat) (fileURL filePath : String) (fs : FS) (res : Response) (fp : String)
    (hresp : (CallRequest reqErr net true fileURL retries).resp = some res)
    (hfp : resolvePath filePath res.finalURL = some fp)
    (hzero : fs fp = some []) :
    (DownloadURL reqErr net retries fileURL filePath none fs).outcome = DlOutcome.ok ∧
    (DownloadURL reqErr net retries fileURL filePath none fs).fs fp = some res.body := by
  have hempty : CheckIfFileIsEmpty fs fp = true := by
    simp [CheckIfFileIsEmpty, hzero]
  have hev := CallRequest_errVal_of_resp reqErr net true fileURL retries res hresp
  have hw := downloadFromCall_write_ok fileURL filePath
    (CallRequest reqErr net true fileURL retries) res fp fs hev hresp hfp hempty
  have hd : DownloadURL reqErr net retries fileURL filePath none fs =
      { outcome := .ok, fs := fsSet (fsSet fs fp (some [])) fp (some res.body),
        logs := (CallRequest reqErr net true fileURL retries).logMsgs,
        attempts := (CallRequest reqErr net true fileURL retries).attempts } := hw
  rw [hd]
  exact ⟨rfl, fsSet_same _ _ _⟩

/-- C10 witness: a zero-byte `/out/b.png` is overwritten with the fresh body
`[9, 8]`. -/
theorem claimC10_witness :
    c10fs "/out/b.png" = some [] ∧
    (DownloadURL none c10net 4 "http://example.com/i/b.PNG" "/out/" none
      c10fs).outcome = DlOutcome.ok ∧
    (DownloadURL none c10net 4 "http://example.com/i/b.PNG" "/out/" none
      c10fs).fs "/out/b.png" = some [9, 8] := by
  have h := claimC10_empty_file_redownloaded none c10net 4 "http://example.com/i/b.PNG"
    "/out/" c10fs c10res "/out/b.png" (by decide) (by decide) (by decide)
  exact ⟨by decide, h.1, h.2⟩

end CulturedDownloader
